import Mathlib

/-!
Shallow embedding of `gag_seeds_client.py` (class `GAGItemsMonitor`).

The Python program polls a remote inventory API, compares fetched
quantities of watchlisted items against the previously observed
quantities, sends notifications, and renders a display.  External
effects (HTTP requests, console, clock) are modelled as explicit
function parameters; the mutable `self.previous_stock` dictionary is
modelled as explicit state passed in and out.
-/

namespace GAG

/-- An item record fetched from the API, a JSON object with a "name"
string and a "quantity" integer.  The code reads these fields with
`item.get("name", default)` and `item.get("quantity", 0)`; a record
missing a field is modelled by the defaulted value already filled in. -/
structure Item where
  name : String
  quantity : Int
deriving DecidableEq, Repr

/-- An Inventory Snapshot: the `all_items_data` dict, category name to
list of item records.  Python dicts iterate in insertion order, and
`get_all_items_data` inserts the categories in their fixed order, so an
ordered association list is a faithful model. -/
abbrev Snapshot := List (String × List Item)

/-- The `previous_stock` dict of the monitor: lower-cased item name to
last-seen quantity, modelled as a function to `Option Int`
(`none` = key absent). -/
abbrev StockState := String → Option Int

/-- The `current_stock` dict built inside `check_stock_changes`:
lower-cased name to a record holding the quantity and the category. -/
abbrev CurrentStock := String → Option (Int × String)

/-- A trigger event: a watched item found with quantity > 0 this cycle,
carrying the data printed in the alert and sent to the notifier
(`watched_item, category, current_quantity, previous_quantity`). -/
structure TriggerEvent where
  name : String
  category : String
  quantity : Int
  previous : Int
deriving DecidableEq, Repr

/-- Outcome of one `requests.post(webhook, json=payload)` dispatch, as
classified by `send_discord_notification`. -/
inductive DispatchResult
  | success
  | failure (code : Nat)
  | excFailure (msg : String)
deriving DecidableEq, Repr

/-- The fixed category list of the monitor:
seeds, gear, eggs, cosmetics, eventshop. -/
def categories : List String := ["seeds", "gear", "eggs", "cosmetics", "eventshop"]

/-- Model of the Python `str.lower()` calls: lower-case every character.
Item and watchlist names in this program are ASCII, where mapping
`Char.toLower` over the characters agrees with `str.lower()`. -/
def lower (s : String) : String := ⟨s.data.map Char.toLower⟩

/-- One dict store `current_stock[item_name] = ...` recording the
quantity and category under the key `item.get("name", "").lower()`:
a later store for the same key overwrites an earlier one. -/
def insertItem (category : String) (acc : CurrentStock) (item : Item) : CurrentStock :=
  fun s => if s = (lower item.name) then some (item.quantity, category) else acc s

/-- The two nested loops of `check_stock_changes` that build
`current_stock` from `all_items_data`. -/
def buildCurrentStock (snapshot : Snapshot) : CurrentStock :=
  snapshot.foldl (fun acc p => p.2.foldl (insertItem p.1) acc) (fun _ => none)

/-- Quantity field of `current_stock.get(watched_item_lower, default)`
where the default record has quantity 0 and category "unknown". -/
def qtyOf (current : CurrentStock) (s : String) : Int :=
  ((current s).getD (0, "unknown")).1

/-- Category field of `current_stock.get(watched_item_lower, default)`
where the default record has quantity 0 and category "unknown". -/
def catOf (current : CurrentStock) (s : String) : String :=
  ((current s).getD (0, "unknown")).2

/-- The console line printed by the ALERT `print` call in
`check_stock_changes` for an in-stock watched item. -/
def alertLine (e : TriggerEvent) : String :=
  "ALERT: " ++ e.name ++ " is in stock! (" ++ toString e.quantity
    ++ " available in " ++ e.category ++ ")"

/-- Model of `send_discord_notification`: returns the list of dispatch
attempts, each with its logged outcome.  If no webhook is configured it
returns at once without touching the network.  Otherwise it posts once;
HTTP 204 is logged as success, any other status as failure, and a raised
exception is caught and logged as failure (nothing propagates: the model
is a total function).  `post url e` models
`requests.post(self.discord_webhook, json=payload)` for the payload
built from event `e`, with `Except.error` a raised exception. -/
def send_discord_notification (webhook : Option String)
    (post : String → TriggerEvent → Except String Nat)
    (e : TriggerEvent) : List (String × DispatchResult) :=
  match webhook with
  | none => []
  | some url =>
    match post url e with
    | Except.ok code => if code = 204 then [(url, .success)] else [(url, .failure code)]
    | Except.error msg => [(url, .excFailure msg)]

/-- The observable result of one `check_stock_changes` pass:
the trigger events, the console alert lines, the webhook dispatch
attempts, and the updated `previous_stock`. -/
structure DetectorOut where
  events : List TriggerEvent
  alerts : List String
  dispatches : List (String × DispatchResult)
  state : StockState

/-- One iteration of the watched-item loop in `check_stock_changes`:
look the lowered name up in `current_stock` (defaulting to quantity 0,
category "unknown"), read the previous quantity from `previous_stock`
(default 0), alert and notify when the current quantity is > 0, and
unconditionally store the current quantity back into `previous_stock`. -/
def detectStep (current : CurrentStock) (webhook : Option String)
    (post : String → TriggerEvent → Except String Nat)
    (acc : DetectorOut) (w : String) : DetectorOut :=
  let wl := (lower w)
  let cd := (current wl).getD (0, "unknown")
  let prevQ := (acc.state wl).getD 0
  let e : TriggerEvent := ⟨w, cd.2, cd.1, prevQ⟩
  if 0 < cd.1 then
    { events := acc.events ++ [e]
      alerts := acc.alerts ++ [alertLine e]
      dispatches := acc.dispatches ++ send_discord_notification webhook post e
      state := fun s => if s = wl then some cd.1 else acc.state s }
  else
    { events := acc.events
      alerts := acc.alerts
      dispatches := acc.dispatches
      state := fun s => if s = wl then some cd.1 else acc.state s }

/-- Model of `check_stock_changes(self, all_items_data)`: returns at
once when the watchlist is empty; otherwise builds `current_stock` and
runs the watched-item loop over the watchlist, threading
`previous_stock`. -/
def check_stock_changes (webhook : Option String)
    (post : String → TriggerEvent → Except String Nat)
    (watchlist : List String) (snapshot : Snapshot)
    (prev : StockState) : DetectorOut :=
  if watchlist.isEmpty then ⟨[], [], [], prev⟩
  else
    watchlist.foldl (detectStep (buildCurrentStock snapshot) webhook post)
      ⟨[], [], [], prev⟩

/-- Outcome of one `self.session.get(...)` call for a category, as
`get_all_items_data` classifies it: HTTP 200 with a parsed JSON body,
a non-200 status, a network error (`RequestException`), or a body that
fails to parse (`JSONDecodeError`). -/
inductive FetchResult
  | httpOk (items : List Item)
  | httpError (code : Nat)
  | netError (msg : String)
  | parseError (msg : String)
deriving DecidableEq, Repr

/-- Model of `get_all_items_data`: one fetch per category in the fixed
order; a 200 response stores its parsed items, every failure stores an
empty list for that category, and the loop always continues with the
next category. -/
def get_all_items_data (fetch : String → FetchResult) : Snapshot :=
  categories.foldl (fun acc category =>
    match fetch category with
    | .httpOk items => acc ++ [(category, items)]
    | _ => acc ++ [(category, [])]) []

/-- Items a category contributes to the snapshot: the parsed body on a
200 response, the empty list on any failure. -/
def fetchedItems : FetchResult → List Item
  | .httpOk items => items
  | _ => []

/-- Lookup of the entry of a category in a snapshot (first match; the
fetcher inserts each category exactly once). -/
def snapLookup (snapshot : Snapshot) (category : String) : Option (List Item) :=
  match snapshot with
  | [] => none
  | p :: rest => if p.1 = category then some p.2 else snapLookup rest category

/-- The `watched_items_found` list computed by `display_all_items`: for
each category in the snapshot and each item record in it, the item is
appended (rendered as name followed by the category in parentheses)
whenever its lower-cased name is in the lower-cased watchlist.  The
`if not items: continue` guard skips empty categories, which contribute
nothing either way. -/
def display_watched_found (watchlist : List String) (snapshot : Snapshot) : List String :=
  snapshot.foldl (fun acc p =>
    p.2.foldl (fun acc2 it =>
      if (lower it.name) ∈ watchlist.map lower
      then acc2 ++ [it.name ++ " (" ++ p.1 ++ ")"] else acc2) acc) []

/-- The waiting phase of the run loop in auto-refresh mode:
`for _ in range(remaining): if not self.running: break; time.sleep(1)`.
Here `running k` is the value of `self.running` observed at the k-th
check, the first `Nat` argument is `remaining`, the second the index of
the current check, and the result is the list of sleep durations (in
seconds) actually performed. -/
def waitLoop (running : Nat → Bool) : Nat → Nat → List Nat
  | 0, _ => []
  | rem + 1, k => if running k then 1 :: waitLoop running rem (k + 1) else []

/-- Running a sequence of detector passes from the initial state (the
constructor sets `previous_stock` to the empty dict), one snapshot per
cycle, with a fixed watchlist: the persistent Observation State across
cycles. -/
def runDetector (webhook : Option String)
    (post : String → TriggerEvent → Except String Nat)
    (watchlist : List String) (snapshots : List Snapshot) : StockState :=
  snapshots.foldl
    (fun st s => (check_stock_changes webhook post watchlist s st).state)
    (fun _ => none)

/-- The scan order of `current_stock` construction, flattened: one entry
per item record, in category order then item order, carrying the lowered
name as key and the quantity/category pair as value. -/
def stockEntries : Snapshot → List (String × (Int × String))
  | [] => []
  | p :: rest =>
      p.2.map (fun it => ((lower it.name), (it.quantity, p.1))) ++ stockEntries rest

/-- Modelled from the spec: the "first/only match wins" lookup rule the
spec states for the Stock-Change Detector scan — return the value of the
first entry whose key matches.  Written from the words of the spec, to
be compared with `buildCurrentStock`, which is translated from the
code. -/
def specFirstMatch (k : String) : List (String × (Int × String)) → Option (Int × String)
  | [] => none
  | p :: t => if p.1 = k then some p.2 else specFirstMatch k t

/-- The (category, item) pairs of a snapshot in display scan order, used
to characterize `display_watched_found`. -/
def snapItems : Snapshot → List (String × Item)
  | [] => []
  | p :: rest => p.2.map (fun it => (p.1, it)) ++ snapItems rest

/-- Two trigger events that agree up to the letter case of the reported
name: equal lowered name, equal category, quantity and previous
quantity.  Watchlist names have case-insensitive identity. -/
def EventMatch (e e' : TriggerEvent) : Prop :=
  (lower e.name) = (lower e'.name) ∧ e.category = e'.category ∧
    e.quantity = e'.quantity ∧ e.previous = e'.previous

/-- Two item records that differ at most in the letter case of the
name. -/
def ItemCaseVariant (it it' : Item) : Prop :=
  (lower it.name) = (lower it'.name) ∧ it.quantity = it'.quantity

/-- Two snapshots that differ at most in the letter case of item
names: same categories in the same order, and item lists related
pointwise by `ItemCaseVariant`. -/
def SnapCaseVariant (s s' : Snapshot) : Prop :=
  List.Forall₂ (fun p p' => p.1 = p'.1 ∧ List.Forall₂ ItemCaseVariant p.2 p'.2) s s'

/-! ### Helper lemmas about one detector step -/

lemma detectStep_state_apply (current : CurrentStock) (wh : Option String)
    (post : String → TriggerEvent → Except String Nat) (acc : DetectorOut)
    (w : String) (s : String) :
    (detectStep current wh post acc w).state s =
      if s = (lower w) then some (qtyOf current (lower w)) else acc.state s := by
  simp only [detectStep, qtyOf]
  split <;> rfl

lemma detectStep_events (current : CurrentStock) (wh : Option String)
    (post : String → TriggerEvent → Except String Nat) (acc : DetectorOut)
    (w : String) :
    (detectStep current wh post acc w).events =
      if 0 < qtyOf current (lower w)
      then acc.events ++
        [⟨w, catOf current (lower w), qtyOf current (lower w), (acc.state (lower w)).getD 0⟩]
      else acc.events := by
  simp only [detectStep, qtyOf, catOf]
  split <;> rfl

lemma detectStep_alerts (current : CurrentStock) (wh : Option String)
    (post : String → TriggerEvent → Except String Nat) (acc : DetectorOut)
    (w : String) :
    (detectStep current wh post acc w).alerts =
      if 0 < qtyOf current (lower w)
      then acc.alerts ++
        [alertLine ⟨w, catOf current (lower w), qtyOf current (lower w),
          (acc.state (lower w)).getD 0⟩]
      else acc.alerts := by
  simp only [detectStep, qtyOf, catOf]
  split <;> rfl

lemma detectStep_dispatches (current : CurrentStock) (wh : Option String)
    (post : String → TriggerEvent → Except String Nat) (acc : DetectorOut)
    (w : String) :
    (detectStep current wh post acc w).dispatches =
      if 0 < qtyOf current (lower w)
      then acc.dispatches ++ send_discord_notification wh post
        ⟨w, catOf current (lower w), qtyOf current (lower w),
          (acc.state (lower w)).getD 0⟩
      else acc.dispatches := by
  simp only [detectStep, qtyOf, catOf]
  split <;> rfl

lemma send_none (post : String → TriggerEvent → Except String Nat) (e : TriggerEvent) :
    send_discord_notification none post e = [] := rfl

lemma send_some_length (url : String)
    (post : String → TriggerEvent → Except String Nat) (e : TriggerEvent) :
    (send_discord_notification (some url) post e).length = 1 := by
  cases h : post url e with
  | ok code => by_cases h2 : code = 204 <;> simp [send_discord_notification, h, h2]
  | error msg => simp [send_discord_notification, h]

/-! ### Helper lemmas about the watched-item fold -/

lemma foldl_detect_state (current : CurrentStock) (wh : Option String)
    (post : String → TriggerEvent → Except String Nat) :
    ∀ (l : List String) (acc : DetectorOut) (s : String),
      (l.foldl (detectStep current wh post) acc).state s =
        if s ∈ l.map lower then some (qtyOf current s) else acc.state s := by
  intro l
  induction l with
  | nil => intro acc s; simp
  | cons w ws ih =>
    intro acc s
    simp only [List.foldl_cons, List.map_cons, List.mem_cons]
    rw [ih]
    by_cases hs : s ∈ ws.map lower
    · simp [hs]
    · rw [detectStep_state_apply]
      by_cases hw : s = (lower w)
      · subst hw; simp
      · simp [hw, hs]

lemma foldl_detect_events_name (current : CurrentStock) (wh : Option String)
    (post : String → TriggerEvent → Except String Nat) :
    ∀ (l : List String) (acc : DetectorOut) (name : String),
      (∃ e ∈ (l.foldl (detectStep current wh post) acc).events, e.name = name) ↔
        (∃ e ∈ acc.events, e.name = name) ∨
          (name ∈ l ∧ 0 < qtyOf current (lower name)) := by
  intro l
  induction l with
  | nil => intro acc name; simp
  | cons w ws ih =>
    intro acc name
    simp only [List.foldl_cons, List.mem_cons]
    rw [ih, detectStep_events]
    by_cases hq : 0 < qtyOf current (lower w)
    · rw [if_pos hq]
      constructor
      · rintro (⟨e, he, hn⟩ | ⟨hm, hp⟩)
        · rcases List.mem_append.mp he with h1 | h1
          · exact Or.inl ⟨e, h1, hn⟩
          · have hE := List.mem_singleton.mp h1
            subst hE
            have hw : w = name := hn
            subst hw
            exact Or.inr ⟨Or.inl rfl, hq⟩
        · exact Or.inr ⟨Or.inr hm, hp⟩
      · rintro (⟨e, he, hn⟩ | ⟨hm | hm, hp⟩)
        · exact Or.inl ⟨e, List.mem_append.mpr (Or.inl he), hn⟩
        · refine Or.inl ⟨_, List.mem_append.mpr (Or.inr (List.mem_singleton.mpr rfl)), ?_⟩
          exact hm.symm
        · exact Or.inr ⟨hm, hp⟩
    · rw [if_neg hq]
      constructor
      · rintro (h | ⟨hm, hp⟩)
        · exact Or.inl h
        · exact Or.inr ⟨Or.inr hm, hp⟩
      · rintro (h | ⟨hm | hm, hp⟩)
        · exact Or.inl h
        · subst hm
          exact absurd hp hq
        · exact Or.inr ⟨hm, hp⟩

lemma foldl_detect_alerts (current : CurrentStock) (wh : Option String)
    (post : String → TriggerEvent → Except String Nat) :
    ∀ (l : List String) (acc : DetectorOut),
      acc.alerts = acc.events.map alertLine →
      (l.foldl (detectStep current wh post) acc).alerts =
        (l.foldl (detectStep current wh post) acc).events.map alertLine := by
  intro l
  induction l with
  | nil => intro acc h; exact h
  | cons w ws ih =>
    intro acc h
    simp only [List.foldl_cons]
    apply ih
    rw [detectStep_alerts, detectStep_events]
    split <;> simp [h]

lemma foldl_detect_dispatches_none (current : CurrentStock)
    (post : String → TriggerEvent → Except String Nat) :
    ∀ (l : List String) (acc : DetectorOut),
      (l.foldl (detectStep current none post) acc).dispatches = acc.dispatches := by
  intro l
  induction l with
  | nil => intro acc; rfl
  | cons w ws ih =>
    intro acc
    simp only [List.foldl_cons]
    rw [ih, detectStep_dispatches, send_none]
    split <;> simp

lemma foldl_detect_dispatch_count (current : CurrentStock) (url : String)
    (post : String → TriggerEvent → Except String Nat) :
    ∀ (l : List String) (acc : DetectorOut),
      acc.dispatches.length = acc.events.length →
      (l.foldl (detectStep current (some url) post) acc).dispatches.length =
        (l.foldl (detectStep current (some url) post) acc).events.length := by
  intro l
  induction l with
  | nil => intro acc h; exact h
  | cons w ws ih =>
    intro acc h
    simp only [List.foldl_cons]
    apply ih
    rw [detectStep_dispatches, detectStep_events]
    split
    · simp [h, send_some_length]
    · exact h

lemma foldl_detect_post_indep (current : CurrentStock) (wh : Option String)
    (post post' : String → TriggerEvent → Except String Nat) :
    ∀ (l : List String) (acc acc' : DetectorOut),
      acc.state = acc'.state → acc.events = acc'.events →
      (l.foldl (detectStep current wh post) acc).state =
          (l.foldl (detectStep current wh post') acc').state ∧
        (l.foldl (detectStep current wh post) acc).events =
          (l.foldl (detectStep current wh post') acc').events := by
  intro l
  induction l with
  | nil => intro acc acc' hst hev; exact ⟨hst, hev⟩
  | cons w ws ih =>
    intro acc acc' hst hev
    simp only [List.foldl_cons]
    apply ih
    · funext s
      rw [detectStep_state_apply, detectStep_state_apply, hst]
    · rw [detectStep_events, detectStep_events, hst, hev]

lemma foldl_detect_congr (current : CurrentStock) (wh : Option String)
    (post : String → TriggerEvent → Except String Nat) :
    ∀ (l l' : List String) (acc acc' : DetectorOut),
      l.map lower = l'.map lower →
      acc.state = acc'.state →
      List.Forall₂ EventMatch acc.events acc'.events →
      (l.foldl (detectStep current wh post) acc).state =
          (l'.foldl (detectStep current wh post) acc').state ∧
        List.Forall₂ EventMatch (l.foldl (detectStep current wh post) acc).events
          (l'.foldl (detectStep current wh post) acc').events := by
  intro l
  induction l with
  | nil =>
    intro l' acc acc' hmap hst hev
    have hl' : l' = [] := by
      cases l' with
      | nil => rfl
      | cons a t => simp at hmap
    subst hl'
    exact ⟨hst, hev⟩
  | cons w ws ih =>
    intro l' acc acc' hmap hst hev
    cases l' with
    | nil => simp at hmap
    | cons w' ws' =>
      simp only [List.map_cons, List.cons.injEq] at hmap
      obtain ⟨hw, hws⟩ := hmap
      simp only [List.foldl_cons]
      apply ih ws' _ _ hws
      · funext s
        rw [detectStep_state_apply, detectStep_state_apply, hw, hst]
      · rw [detectStep_events, detectStep_events, hw, hst]
        split
        · refine List.rel_append hev (List.Forall₂.cons ?_ List.Forall₂.nil)
          exact ⟨hw, rfl, rfl, rfl⟩
        · exact hev

/-! ### Helper lemmas about a whole detector pass -/

lemma check_state_apply (wh : Option String)
    (post : String → TriggerEvent → Except String Nat)
    (w : List String) (snap : Snapshot) (prev : StockState) (s : String) :
    (check_stock_changes wh post w snap prev).state s =
      if s ∈ w.map lower then some (qtyOf (buildCurrentStock snap) s)
      else prev s := by
  unfold check_stock_changes
  by_cases hw : w.isEmpty
  · have hnil : w = [] := List.isEmpty_iff.mp hw
    subst hnil
    simp
  · simp only [hw, if_false, Bool.false_eq_true]
    exact foldl_detect_state _ _ _ w ⟨[], [], [], prev⟩ s

lemma foldl_run_none (wh : Option String)
    (post : String → TriggerEvent → Except String Nat)
    (w : List String) (k : String) (hk : k ∉ w.map lower) :
    ∀ (ss : List Snapshot) (st : StockState), st k = none →
      (ss.foldl (fun st s => (check_stock_changes wh post w s st).state) st) k = none := by
  intro ss
  induction ss with
  | nil => intro st h; exact h
  | cons s rest ih =>
    intro st h
    simp only [List.foldl_cons]
    apply ih
    rw [check_state_apply]
    simp [hk, h]

/-! ### Helper lemmas about the fetcher -/

lemma fetch_map_eq (fetch : String → FetchResult) :
    ∀ (l : List String) (acc : Snapshot),
      l.foldl (fun acc category =>
        match fetch category with
        | .httpOk items => acc ++ [(category, items)]
        | _ => acc ++ [(category, [])]) acc
      = acc ++ l.map (fun c => (c, fetchedItems (fetch c))) := by
  intro l
  induction l with
  | nil => intro acc; simp
  | cons c cs ih =>
    intro acc
    simp only [List.foldl_cons, List.map_cons]
    rw [show (match fetch c with
        | FetchResult.httpOk items => acc ++ [(c, items)]
        | _ => acc ++ [(c, [])]) = acc ++ [(c, fetchedItems (fetch c))] by
      cases fetch c <;> rfl]
    rw [ih]
    simp

lemma get_all_items_data_eq (fetch : String → FetchResult) :
    get_all_items_data fetch = categories.map (fun c => (c, fetchedItems (fetch c))) := by
  unfold get_all_items_data
  rw [fetch_map_eq]
  rfl

lemma snapLookup_map (g : String → List Item) :
    ∀ (l : List String) (c : String), c ∈ l →
      snapLookup (l.map (fun c => (c, g c))) c = some (g c) := by
  intro l
  induction l with
  | nil => intro c hc; simp at hc
  | cons a t ih =>
    intro c hc
    simp only [List.map_cons, snapLookup]
    by_cases hac : a = c
    · subst hac; simp
    · simp only [hac, if_false]
      rcases List.mem_cons.mp hc with h | h
      · exact absurd h.symm hac
      · exact ih c h

/-! ### Helper lemmas about the display aggregate -/

lemma display_inner (w : List String) (cat : String) :
    ∀ (items : List Item) (acc : List String),
      items.foldl (fun acc2 it =>
        if (lower it.name) ∈ w.map lower
        then acc2 ++ [it.name ++ " (" ++ cat ++ ")"] else acc2) acc
      = acc ++ items.filterMap (fun it =>
          if (lower it.name) ∈ w.map lower
          then some (it.name ++ " (" ++ cat ++ ")") else none) := by
  intro items
  induction items with
  | nil => intro acc; simp
  | cons it its ih =>
    intro acc
    simp only [List.foldl_cons, List.filterMap_cons]
    by_cases h : (lower it.name) ∈ w.map lower
    · simp only [h, if_true]
      rw [ih]
      simp
    · simp only [h, if_false]
      rw [ih]

lemma display_outer (w : List String) :
    ∀ (s : Snapshot) (acc : List String),
      s.foldl (fun acc p =>
        p.2.foldl (fun acc2 it =>
          if (lower it.name) ∈ w.map lower
          then acc2 ++ [it.name ++ " (" ++ p.1 ++ ")"] else acc2) acc) acc
      = acc ++ (snapItems s).filterMap (fun ci =>
          if (lower ci.2.name) ∈ w.map lower
          then some (ci.2.name ++ " (" ++ ci.1 ++ ")") else none) := by
  intro s
  induction s with
  | nil => intro acc; simp [snapItems]
  | cons p rest ih =>
    intro acc
    simp only [List.foldl_cons]
    rw [ih, display_inner]
    rw [show snapItems (p :: rest) = p.2.map (fun it => (p.1, it)) ++ snapItems rest from rfl]
    rw [List.filterMap_append, List.filterMap_map, List.append_assoc]
    rfl

/-! ### Helper lemmas: the current-stock lookup takes the last match -/

lemma specFirstMatch_append (k : String) :
    ∀ (a b : List (String × (Int × String))),
      specFirstMatch k (a ++ b) = (specFirstMatch k a).or (specFirstMatch k b) := by
  intro a
  induction a with
  | nil => intro b; simp [specFirstMatch]
  | cons p t ih =>
    intro b
    simp only [List.cons_append, specFirstMatch]
    by_cases h : p.1 = k
    · simp [h, Option.or]
    · simp [h, ih]

lemma items_fold_lookup (cat : String) :
    ∀ (items : List Item) (init : CurrentStock) (k : String),
      (items.foldl (insertItem cat) init) k
        = (specFirstMatch k
            ((items.map (fun it => ((lower it.name), (it.quantity, cat)))).reverse)).or
            (init k) := by
  intro items
  induction items with
  | nil => intro init k; simp [specFirstMatch]
  | cons it its ih =>
    intro init k
    simp only [List.foldl_cons, List.map_cons, List.reverse_cons]
    rw [ih, specFirstMatch_append, Option.or_assoc]
    congr 1
    simp only [insertItem, specFirstMatch]
    by_cases h : k = (lower it.name)
    · rw [if_pos h, if_pos h.symm]
      rfl
    · rw [if_neg h, if_neg (fun hh => h hh.symm)]
      rfl

lemma snap_fold_lookup :
    ∀ (s : Snapshot) (init : CurrentStock) (k : String),
      (s.foldl (fun acc p => p.2.foldl (insertItem p.1) acc) init) k
        = (specFirstMatch k (stockEntries s).reverse).or (init k) := by
  intro s
  induction s with
  | nil => intro init k; simp [stockEntries, specFirstMatch]
  | cons p rest ih =>
    intro init k
    simp only [List.foldl_cons]
    rw [ih, items_fold_lookup, ← Option.or_assoc]
    congr 1
    rw [show stockEntries (p :: rest)
          = p.2.map (fun it => ((lower it.name), (it.quantity, p.1))) ++ stockEntries rest
        from rfl]
    rw [List.reverse_append, specFirstMatch_append]

/-! ### Helper lemmas: case-insensitivity congruence -/

lemma items_fold_congr (cat : String) :
    ∀ {items items' : List Item}, List.Forall₂ ItemCaseVariant items items' →
      ∀ acc : CurrentStock, items.foldl (insertItem cat) acc = items'.foldl (insertItem cat) acc := by
  intro items items' h
  induction h with
  | nil => intro acc; rfl
  | @cons a b l₁ l₂ hab htail ih =>
    intro acc
    simp only [List.foldl_cons]
    rw [show insertItem cat acc a = insertItem cat acc b from
      funext fun s => by simp [insertItem, hab.1, hab.2]]
    exact ih _

lemma buildCurrentStock_congr {s s' : Snapshot} (h : SnapCaseVariant s s') :
    buildCurrentStock s = buildCurrentStock s' := by
  unfold buildCurrentStock
  have main : ∀ {a b : Snapshot}, SnapCaseVariant a b →
      ∀ init : CurrentStock,
        a.foldl (fun acc p => p.2.foldl (insertItem p.1) acc) init
          = b.foldl (fun acc p => p.2.foldl (insertItem p.1) acc) init := by
    intro a b hab
    induction hab with
    | nil => intro init; rfl
    | @cons p p' l₁ l₂ hp htail ih =>
      intro init
      simp only [List.foldl_cons]
      rw [show p.2.foldl (insertItem p.1) init = p'.2.foldl (insertItem p'.1) init by
        rw [← hp.1]
        exact items_fold_congr p.1 hp.2 init]
      exact ih _
  exact main h _

/-! ### Helper lemmas about the auto-refresh wait loop -/

lemma waitLoop_all_one (running : Nat → Bool) :
    ∀ (rem k : Nat), ∀ d ∈ waitLoop running rem k, d = 1 := by
  intro rem
  induction rem with
  | zero => intro k d hd; simp [waitLoop] at hd
  | succ r ih =>
    intro k d hd
    simp only [waitLoop] at hd
    by_cases h : running k = true
    · rw [if_pos h] at hd
      rcases List.mem_cons.mp hd with h1 | h1
      · exact h1
      · exact ih (k + 1) d h1
    · rw [if_neg h] at hd
      simp at hd

lemma waitLoop_stop (running : Nat → Bool) :
    ∀ (rem k j : Nat), running (k + j) = false →
      (waitLoop running rem k).length ≤ j := by
  intro rem
  induction rem with
  | zero => intro k j h; simp [waitLoop]
  | succ r ih =>
    intro k j h
    simp only [waitLoop]
    by_cases hk : running k = true
    · rw [if_pos hk]
      cases j with
      | zero =>
        rw [Nat.add_zero] at h
        rw [h] at hk
        simp at hk
      | succ j' =>
        simp only [List.length_cons]
        have h' : running ((k + 1) + j') = false := by
          rw [show (k + 1) + j' = k + (j' + 1) by omega]
          exact h
        exact Nat.succ_le_succ (ih (k + 1) j' h')
    · rw [if_neg hk]
      simp

/-! ### The claims -/

/-- Claim C1: for every watched item name, the Stock-Change Detector
produces a trigger event in a cycle if and only if the quantity the
snapshot scan yields for that name is positive — regardless of the
previous quantity (any `prev` state), so the alert repeats every cycle
the item stays in stock, and no event fires when the name is absent
(quantity defaults to 0).  Moreover every trigger event is logged to
the console (alerts are exactly the alert lines of the events) and,
with a configured webhook, every trigger event gets exactly one
notification dispatch attempt. -/
theorem c1_trigger_iff_in_stock (wh : Option String)
    (post : String → TriggerEvent → Except String Nat)
    (w : List String) (snap : Snapshot) (prev : StockState)
    (name : String) (hmem : name ∈ w) :
    ((∃ e ∈ (check_stock_changes wh post w snap prev).events, e.name = name) ↔
      0 < qtyOf (buildCurrentStock snap) (lower name)) ∧
    (check_stock_changes wh post w snap prev).alerts =
      (check_stock_changes wh post w snap prev).events.map alertLine ∧
    ∀ url, (check_stock_changes (some url) post w snap prev).dispatches.length =
      (check_stock_changes (some url) post w snap prev).events.length := by
  have hne : ¬ w.isEmpty = true := by
    intro h
    rw [List.isEmpty_iff.mp h] at hmem
    simp at hmem
  refine ⟨?_, ?_, ?_⟩
  · unfold check_stock_changes
    rw [if_neg hne]
    rw [foldl_detect_events_name]
    simp [hmem]
  · unfold check_stock_changes
    rw [if_neg hne]
    exact foldl_detect_alerts _ _ _ w _ rfl
  · intro url
    unfold check_stock_changes
    rw [if_neg hne]
    exact foldl_detect_dispatch_count _ _ _ w _ rfl

/-- Concrete instance of C1: watchlist ["Sunflower"], snapshot with
sunflower at quantity 3 in seeds. -/
theorem c1_trigger_iff_in_stock_witness :
    ("Sunflower" ∈ ["Sunflower"]) ∧
    (((∃ e ∈ (check_stock_changes none (fun _ _ => Except.ok 204) ["Sunflower"]
          [("seeds", [⟨"sunflower", 3⟩])] (fun _ => none)).events, e.name = "Sunflower") ↔
        0 < qtyOf (buildCurrentStock [("seeds", [⟨"sunflower", 3⟩])]) (lower "Sunflower")) ∧
      (check_stock_changes none (fun _ _ => Except.ok 204) ["Sunflower"]
          [("seeds", [⟨"sunflower", 3⟩])] (fun _ => none)).alerts =
        (check_stock_changes none (fun _ _ => Except.ok 204) ["Sunflower"]
          [("seeds", [⟨"sunflower", 3⟩])] (fun _ => none)).events.map alertLine ∧
      ∀ url, (check_stock_changes (some url) (fun _ _ => Except.ok 204) ["Sunflower"]
          [("seeds", [⟨"sunflower", 3⟩])] (fun _ => none)).dispatches.length =
        (check_stock_changes (some url) (fun _ _ => Except.ok 204) ["Sunflower"]
          [("seeds", [⟨"sunflower", 3⟩])] (fun _ => none)).events.length) :=
  ⟨by decide,
   c1_trigger_iff_in_stock none (fun _ _ => Except.ok 204) ["Sunflower"]
     [("seeds", [⟨"sunflower", 3⟩])] (fun _ => none) "Sunflower" (by decide)⟩

/-- Claim C2: after at least one completed detector pass from the
initial empty Observation State with a non-empty watchlist, the
Observation State is defined exactly on the lower-cased watchlist names
(no stale or extra keys), and each key holds the quantity the last
snapshot scan observed for it — 0 when the name is absent from every
category. -/
theorem c2_observation_state_after_cycles (wh : Option String)
    (post : String → TriggerEvent → Except String Nat)
    (w : List String) (hw : w ≠ [])
    (ss : List Snapshot) (sLast : Snapshot) (k : String) :
    runDetector wh post w (ss ++ [sLast]) k =
      if k ∈ w.map lower
      then some (qtyOf (buildCurrentStock sLast) k) else none := by
  unfold runDetector
  rw [List.foldl_append]
  simp only [List.foldl_cons, List.foldl_nil]
  rw [check_state_apply]
  by_cases hk : k ∈ w.map lower
  · rw [if_pos hk, if_pos hk]
  · rw [if_neg hk, if_neg hk]
    exact foldl_run_none wh post w k hk ss _ rfl

/-- Concrete instance of C2: watchlist ["Sunflower"], one cycle with an
empty snapshot; the Observation State maps "sunflower" to 0. -/
theorem c2_observation_state_after_cycles_witness :
    (["Sunflower"] : List String) ≠ [] ∧
    runDetector none (fun _ _ => Except.ok 204) ["Sunflower"] ([] ++ [[]]) "sunflower" =
      (if "sunflower" ∈ (["Sunflower"].map lower)
       then some (qtyOf (buildCurrentStock []) "sunflower") else none) ∧
    qtyOf (buildCurrentStock []) "sunflower" = 0 :=
  ⟨by decide,
   c2_observation_state_after_cycles none (fun _ _ => Except.ok 204) ["Sunflower"]
     (by decide) [] [] "sunflower",
   by decide⟩

/-- Claim C3 fails on the code: when a watched name matches item records
in more than one place of the scan, the dict build lets the later store
overwrite the earlier one, so the detector reports the category and
quantity of the LAST match, not the first.  Concretely, with carrot at
quantity 5 in seeds (scanned first) and quantity 7 in gear (scanned
last), the trigger event carries ("gear", 7) and not ("seeds", 5). -/
theorem c3_first_match_counterexample :
    (check_stock_changes none (fun _ _ => Except.ok 204) ["Carrot"]
        [("seeds", [⟨"carrot", 5⟩]), ("gear", [⟨"carrot", 7⟩])]
        (fun _ => none)).events.map (fun e => (e.category, e.quantity))
      = [("gear", (7 : Int))] ∧
    ¬ ((check_stock_changes none (fun _ _ => Except.ok 204) ["Carrot"]
        [("seeds", [⟨"carrot", 5⟩]), ("gear", [⟨"carrot", 7⟩])]
        (fun _ => none)).events.map (fun e => (e.category, e.quantity))
      = [("seeds", (5 : Int))]) := by
  constructor <;> decide

/-- Claim C3 amended: the Stock-Change Detector takes the current
quantity and category from the last match encountered in the scan
across all categories — equivalently, the first match of the reversed
scan order — because each later dict store overwrites the earlier one
for the same lowered name. -/
theorem c3_last_match_wins (snap : Snapshot) (k : String) :
    buildCurrentStock snap k = specFirstMatch k (stockEntries snap).reverse := by
  unfold buildCurrentStock
  rw [snap_fold_lookup]
  exact Option.or_none

/-- Claim C4: the Inventory Fetcher always returns a snapshot whose keys
are exactly the fixed category list, in order; each category maps to its
parsed items on success and to the empty list on any failure, and the
entry of each category depends only on the outcome of its own fetch, so
one failure never disturbs the other categories. -/
theorem c4_fetch_failure_isolated (fetch : String → FetchResult) :
    (get_all_items_data fetch).map Prod.fst = categories ∧
    ∀ c ∈ categories,
      snapLookup (get_all_items_data fetch) c = some (fetchedItems (fetch c)) := by
  constructor
  · rw [get_all_items_data_eq]
    simp only [List.map_map]
    rfl
  · intro c hc
    rw [get_all_items_data_eq]
    exact snapLookup_map _ categories c hc

/-- Concrete instance of C4: gear fails with a network error, all other
categories succeed; the snapshot still covers every category and maps
gear to the empty list. -/
theorem c4_fetch_failure_isolated_witness :
    ((get_all_items_data (fun c =>
        if c = "gear" then FetchResult.netError "down"
        else FetchResult.httpOk [⟨"x", 1⟩])).map Prod.fst = categories) ∧
    "gear" ∈ categories ∧
    snapLookup (get_all_items_data (fun c =>
        if c = "gear" then FetchResult.netError "down"
        else FetchResult.httpOk [⟨"x", 1⟩])) "gear" = some [] :=
  ⟨(c4_fetch_failure_isolated _).1,
   by decide,
   ((c4_fetch_failure_isolated _).2 "gear" (by decide)).trans (by decide)⟩

/-- Claim C5 fails on the code: `display_all_items` appends a watched
item to `watched_items_found` whenever the name matches, without any
quantity check, so a watched item that is present with quantity 0 (out
of stock) still appears in the aggregate line. -/
theorem c5_aggregate_counterexample :
    display_watched_found ["carrot"] [("seeds", [⟨"carrot", 0⟩])] = ["carrot (seeds)"] ∧
    qtyOf (buildCurrentStock [("seeds", [⟨"carrot", 0⟩])]) "carrot" = 0 := by
  constructor <;> decide

/-- Claim C5 amended: the aggregate line lists exactly the item records
of the snapshot whose name matches the watchlist case-insensitively —
membership is independent of the quantity, so out-of-stock watched
items appear as well. -/
theorem c5_aggregate_membership (w : List String) (s : Snapshot) :
    display_watched_found w s = (snapItems s).filterMap (fun ci =>
      if (lower ci.2.name) ∈ w.map lower
      then some (ci.2.name ++ " (" ++ ci.1 ++ ")") else none) := by
  unfold display_watched_found
  rw [display_outer]
  rfl

/-- Claim C6: watched-name matching is case-insensitive — replacing the
watchlist or the snapshot by letter-case variants (equal lowered
watchlist names; item records with equal lowered names, quantities,
categories and order) leaves the resulting Observation State literally
unchanged and produces the same trigger events up to the letter case of
the reported name (names have case-insensitive identity). -/
theorem c6_case_insensitive_matching (wh : Option String)
    (post : String → TriggerEvent → Except String Nat)
    (w w' : List String) (s s' : Snapshot) (prev : StockState)
    (hw : w.map lower = w'.map lower)
    (hs : SnapCaseVariant s s') :
    (check_stock_changes wh post w s prev).state =
      (check_stock_changes wh post w' s' prev).state ∧
    List.Forall₂ EventMatch (check_stock_changes wh post w s prev).events
      (check_stock_changes wh post w' s' prev).events := by
  have hb := buildCurrentStock_congr hs
  unfold check_stock_changes
  have hei : w.isEmpty = w'.isEmpty := by
    cases w <;> cases w' <;> simp_all
  by_cases he : w.isEmpty = true
  · rw [if_pos he, if_pos (hei ▸ he)]
    exact ⟨rfl, List.Forall₂.nil⟩
  · rw [if_neg he, if_neg (hei ▸ he)]
    rw [hb]
    exact foldl_detect_congr _ _ _ w w' _ _ hw rfl List.Forall₂.nil

/-- Concrete instance of C6: entry "Carrot" against record "carrot",
versus entry "CARROT" against record "CaRrOt". -/
theorem c6_case_insensitive_matching_witness :
    (["Carrot"].map lower = ["CARROT"].map lower) ∧
    SnapCaseVariant [("seeds", [⟨"carrot", 2⟩])] [("seeds", [⟨"CaRrOt", 2⟩])] ∧
    ((check_stock_changes none (fun _ _ => Except.ok 204) ["Carrot"]
        [("seeds", [⟨"carrot", 2⟩])] (fun _ => none)).state =
      (check_stock_changes none (fun _ _ => Except.ok 204) ["CARROT"]
        [("seeds", [⟨"CaRrOt", 2⟩])] (fun _ => none)).state ∧
     List.Forall₂ EventMatch
       (check_stock_changes none (fun _ _ => Except.ok 204) ["Carrot"]
         [("seeds", [⟨"carrot", 2⟩])] (fun _ => none)).events
       (check_stock_changes none (fun _ _ => Except.ok 204) ["CARROT"]
         [("seeds", [⟨"CaRrOt", 2⟩])] (fun _ => none)).events) := by
  have hs : SnapCaseVariant [("seeds", [⟨"carrot", 2⟩])] [("seeds", [⟨"CaRrOt", 2⟩])] :=
    List.Forall₂.cons ⟨rfl, List.Forall₂.cons ⟨by decide, rfl⟩ List.Forall₂.nil⟩
      List.Forall₂.nil
  exact ⟨by decide, hs,
    c6_case_insensitive_matching none (fun _ _ => Except.ok 204) ["Carrot"] ["CARROT"]
      [("seeds", [⟨"carrot", 2⟩])] [("seeds", [⟨"CaRrOt", 2⟩])] (fun _ => none)
      (by decide) hs⟩

/-- Claim C7: with no webhook configured the Notifier is a no-op — a
detector pass performs no network dispatch at all — while every trigger
event is still logged to the console (the alert lines are exactly the
alert lines of the trigger events). -/
theorem c7_no_webhook_no_dispatch (post : String → TriggerEvent → Except String Nat)
    (w : List String) (s : Snapshot) (prev : StockState) :
    (check_stock_changes none post w s prev).dispatches = [] ∧
    (check_stock_changes none post w s prev).alerts =
      (check_stock_changes none post w s prev).events.map alertLine := by
  unfold check_stock_changes
  by_cases he : w.isEmpty = true
  · rw [if_pos he]
    exact ⟨rfl, rfl⟩
  · rw [if_neg he]
    exact ⟨foldl_detect_dispatches_none _ _ w _, foldl_detect_alerts _ _ _ w _ rfl⟩

/-- Claim C8: for every notification dispatch there is exactly one post
attempt (no retry within the cycle); the attempt is logged as a success
exactly when the endpoint answers HTTP 204, and any other status or a
raised exception is logged as a failure (the model is a total function,
so nothing propagates); and the outcome of the post never influences
the Observation State or the trigger events of the cycle. -/
theorem c8_dispatch_status_204 (url : String)
    (post post' : String → TriggerEvent → Except String Nat) (e : TriggerEvent)
    (wh : Option String) (w : List String) (s : Snapshot) (prev : StockState) :
    (send_discord_notification (some url) post e).length = 1 ∧
    (((url, DispatchResult.success) ∈ send_discord_notification (some url) post e) ↔
      post url e = Except.ok 204) ∧
    (check_stock_changes wh post w s prev).state =
      (check_stock_changes wh post' w s prev).state ∧
    (check_stock_changes wh post w s prev).events =
      (check_stock_changes wh post' w s prev).events := by
  have hind : (check_stock_changes wh post w s prev).state =
      (check_stock_changes wh post' w s prev).state ∧
      (check_stock_changes wh post w s prev).events =
        (check_stock_changes wh post' w s prev).events := by
    unfold check_stock_changes
    by_cases he : w.isEmpty = true
    · rw [if_pos he, if_pos he]
      exact ⟨rfl, rfl⟩
    · rw [if_neg he, if_neg he]
      exact foldl_detect_post_indep _ _ _ _ w _ _ rfl rfl
  refine ⟨send_some_length url post e, ?_, hind.1, hind.2⟩
  cases h : post url e with
  | ok code =>
    by_cases h2 : code = 204
    · subst h2
      simp [send_discord_notification, h]
    · simp [send_discord_notification, h, h2]
  | error msg => simp [send_discord_notification, h]

/-- Claim C9: the auto-refresh waiting phase sleeps only in increments
of exactly one second and re-checks the running flag before every
increment, so if the flag reads false at the j-th check the loop
performs at most j one-second sleeps in total — once a quit command
clears the flag, the wait ends within the one second of the increment
already in flight. -/
theorem c9_wait_quit_prompt (running : Nat → Bool) (rem j : Nat)
    (h : running j = false) :
    (∀ d ∈ waitLoop running rem 0, d = 1) ∧
    (waitLoop running rem 0).length ≤ j := by
  refine ⟨waitLoop_all_one running rem 0, ?_⟩
  exact waitLoop_stop running rem 0 j (by simpa using h)

/-- Concrete instance of C9: 45 seconds remaining, flag cleared at the
third check; at most 3 seconds are slept. -/
theorem c9_wait_quit_prompt_witness :
    ((fun k => decide (k < 3)) 3 = false) ∧
    ((∀ d ∈ waitLoop (fun k => decide (k < 3)) 45 0, d = 1) ∧
     (waitLoop (fun k => decide (k < 3)) 45 0).length ≤ 3) :=
  ⟨by decide, c9_wait_quit_prompt (fun k => decide (k < 3)) 45 3 (by decide)⟩

/-- Claim C10: with an empty watchlist the detector returns at once on
every snapshot — no trigger events, no console alerts, no dispatch
attempts, and the Observation State is returned completely unchanged. -/
theorem c10_empty_watchlist_noop (wh : Option String)
    (post : String → TriggerEvent → Except String Nat)
    (s : Snapshot) (prev : StockState) :
    check_stock_changes wh post [] s prev = ⟨[], [], [], prev⟩ := rfl

end GAG
